import Mathlib

/-!
Shallow embedding of the terraform-provider-pgmold resource reconciliation
engine (src/util.rs, src/resources/schema.rs, src/resources/migration.rs),
together with theorems settling the specification claims about it.

Modelling conventions:
* Machine strings are Lean `String`s; file contents are strings.
* The SHA-256 digest (sha2 crate) is an external pure function and is passed
  in as an uninterpreted parameter `sha : String → String` (assumed to render
  at least 8 hex characters, as the real digest always renders 64).
* The filesystem is a snapshot `FS`: `files p = none` means the path does not
  exist, `some none` means it exists but cannot be read as UTF-8 text,
  `some (some c)` means it reads as the text `c`.  `Path::parent` is a pure
  path computation of the Rust standard library and is carried as an
  uninterpreted field `parentOf`.  `read_dir` is `listDir` (a `none` result
  models a non-existent or unreadable directory).
* The pgmold toolkit calls (connect, introspect, parse, diff, lint, sqlgen,
  execution) are oracles collected in `PgEnv`; fallible calls return `Except`.
* Lifecycle functions return `Except (List String) state`: the error case
  carries the diagnostic messages pushed via `root_error_short` before the
  function returned `None` (silent `?`-style aborts carry `[]`).  Apply-phase
  functions additionally return an effect record describing the side effects
  they attempted (file written, directory created, old artifact deleted,
  SQL generated or executed).
* The regex `\d` class is modelled as the ASCII digits `0`–`9`; filenames in
  all concrete inputs are ASCII, where the Rust regex crate agrees.
-/

set_option maxRecDepth 4000

/-- Tri-state attribute value of the tf_provider `Value` type:
a concrete value, null, or unknown (pending computation). -/
inductive TValue (α : Type) where
  | value (a : α)
  | null
  | unknown
deriving DecidableEq

/-- `Value::is_null`. -/
def TValue.is_null {α : Type} : TValue α → Bool
  | .null => true
  | _ => false

/-- `Value::as_str`: the held string, or `""` for null/unknown. -/
def TValue.as_str : TValue String → String
  | .value s => s
  | _ => ""

/-- `Value::unwrap_or` on a boolean value. -/
def TValue.unwrap_or : TValue Bool → Bool → Bool
  | .value b, _ => b
  | _, d => d

/-- Lint severity tiers (`pgmold::lint::LintSeverity`); `error` is the top
tier that blocks an apply, the other tiers never block. -/
inductive LintSeverity where
  | error
  | warning
  | info
deriving DecidableEq

/-- A lint finding: a severity attached to a human-readable message. -/
structure LintFinding where
  severity : LintSeverity
  message : String
deriving DecidableEq

/-- `pgmold::lint::LintOptions`: the two policy toggles. -/
structure LintOptions where
  allow_destructive : Bool
  is_production : Bool
deriving DecidableEq

/-- Modelled from the spec: `pgmold::lint::has_errors` lives in the external
pgmold crate (only its callers are in this repository); spec §4.3 defines
`has_blocking_error(findings)` to return true iff any finding's severity is
the top ("error") tier. -/
def has_errors (findings : List LintFinding) : Bool :=
  findings.any (fun f => f.severity == LintSeverity.error)

/-- The diagnostics loop of the blocked-apply paths: the message of every
error-severity finding, in source order (`for lint in &lint_results { if
lint.severity == Error { push message } }`). -/
def errorMessages (findings : List LintFinding) : List String :=
  (findings.filter (fun l => l.severity == LintSeverity.error)).map
    (fun l => l.message)

/-- The fixed redaction message of `sanitize_db_error` (src/util.rs). -/
def redactedMessage : String := "Database connection failed (credentials redacted)"

/-- Whether `pat` is a prefix of `hay` (character lists, Bool-valued). -/
def listIsPre : List Char → List Char → Bool
  | [], _ => true
  | _ :: _, [] => false
  | a :: as, b :: bs => a == b && listIsPre as bs

/-- Whether `pat` occurs as a contiguous substring of the character list
(`str::contains` on Rust string slices). -/
def containsSub (pat : List Char) : List Char → Bool
  | [] => listIsPre pat []
  | c :: t => listIsPre pat (c :: t) || containsSub pat t

/-- Rust `str::contains(pat)`. -/
def strContains (s pat : String) : Bool :=
  containsSub pat.toList s.toList

/-- Strip one trailing carriage return, as Rust `str::lines` does for a
line terminated by `\r\n`. -/
def stripCR (s : String) : String :=
  match s.toList.reverse with
  | '\r' :: rest => String.mk rest.reverse
  | _ => s

/-- Apply `f` to every element except the last one. -/
def mapButLast (f : String → String) : List String → List String
  | [] => []
  | [a] => [a]
  | a :: b :: t => f a :: mapButLast f (b :: t)

/-- Split at newline characters (the single-character-separator case of
`String.splitOn`), keeping empty pieces. -/
def splitOnNl : List Char → List (List Char)
  | [] => [[]]
  | c :: t =>
    if c = '\n' then
      [] :: splitOnNl t
    else
      match splitOnNl t with
      | [] => [[c]]
      | p :: ps => (c :: p) :: ps

/-- Rust `str::lines`: split at `\n`, dropping a trailing `\r` of each
terminated line; a final line terminator yields no extra empty line. -/
def rustLines (s : String) : List String :=
  let parts := (splitOnNl s.toList).map String.mk
  match parts.getLast? with
  | some "" => (parts.dropLast).map stripCR
  | _ => mapButLast stripCR parts

/-- The per-line step of `sanitize_db_error` (the closure passed to `map`
in src/util.rs): a line containing a password marker is replaced by the
fixed redacted message, any other line is returned unchanged. -/
def sanitizeLine (line : String) : String :=
  if strContains line "password" || strContains line "PASSWORD" then
    redactedMessage
  else
    line

/-- `sanitize_db_error` (src/util.rs): map `sanitizeLine` over the lines of
the error text and join the results with `\n`. -/
def sanitize_db_error (error : String) : String :=
  String.intercalate "\n" ((rustLines error).map sanitizeLine)

/-- Filesystem snapshot, as described in the module docstring. -/
structure FS where
  files : String → Option (Option String)
  dirExists : String → Bool
  parentOf : String → Option String
  canonical : String → Option String
  listDir : String → Option (List String)

/-- Rust `Path::exists`: true when the path names an existing file (readable
or not) or directory. -/
def fsExists (fs : FS) (p : String) : Bool :=
  (fs.files p).isSome || fs.dirExists p

/-- `compute_schema_hash` (src/util.rs): read the file as text and hash its
bytes; `none` models the `Err` of a missing or unreadable file. -/
def compute_schema_hash (sha : String → String) (fs : FS) (path : String) :
    Option String :=
  match fs.files path with
  | some (some content) => some (sha content)
  | _ => none

/-- `compute_path_hash` (src/util.rs): canonicalize the path, falling back to
the path as given when canonicalization fails, then hash the path string. -/
def compute_path_hash (sha : String → String) (fs : FS) (path : String) : String :=
  sha ((fs.canonical path).getD path)

/-- Numeric value of an ASCII digit. -/
def digitVal (c : Char) : Nat := c.toNat - 48

/-- Value of the 4-character capture group, as `str::parse::<u32>` computes
it (a 4-digit parse never fails and never overflows). -/
def parse4 (a b c d : Char) : Nat :=
  ((digitVal a * 10 + digitVal b) * 10 + digitVal c) * 10 + digitVal d

/-- Whether the regex tail `.*\.sql$` matches `rest`: it ends in `.sql` and
the part consumed by `.*` contains no newline. -/
def dotSqlTail (rest : List Char) : Bool :=
  decide (4 ≤ rest.length) &&
  rest.drop (rest.length - 4) == ['.', 's', 'q', 'l'] &&
  (rest.take (rest.length - 4)).all (fun c => c != '\n')

/-- Strip a literal pattern from the front of `s`; `some r` leaves the rest. -/
def dropPre : List Char → List Char → Option (List Char)
  | [], s => some s
  | _ :: _, [] => none
  | p :: ps, c :: cs => if c == p then dropPre ps cs else none

/-- One anchoring position of the regex `{pfx}(\d{4})_.*\.sql$` of
`find_next_migration_number`: match the escaped literal pattern, then exactly
four digits, an underscore, and a tail matching `.*\.sql$`; return the
parsed capture. -/
def matchHere (pfxL s : List Char) : Option Nat :=
  match dropPre pfxL s with
  | none => none
  | some (a :: b :: c :: d :: u :: rest) =>
    if u == '_' && a.isDigit && b.isDigit && c.isDigit && d.isDigit &&
        dotSqlTail rest then
      some (parse4 a b c d)
    else
      none
  | some _ => none

/-- `Regex::captures` followed by group extraction: the leftmost anchoring
position at which the unanchored pattern matches wins. -/
def findCapture (pfxL : List Char) : List Char → Option Nat
  | [] => matchHere pfxL []
  | c :: t =>
    match matchHere pfxL (c :: t) with
    | some n => some n
    | none => findCapture pfxL t

/-- The number a single directory entry contributes in
`find_next_migration_number`: `re.captures(name)`, group 1, `parse::<u32>`. -/
def extractNumber (pfxOpt : Option String) (name : String) : Option Nat :=
  findCapture ((pfxOpt.getD "").toList) name.toList

/-- The numbers contributed by the matching entries of a directory listing
(`filter_map` over `read_dir`; a `none` listing is the non-existent or
unreadable directory, treated as empty). -/
def matchedNumbers (listing : Option (List String)) (pfxOpt : Option String) :
    List Nat :=
  (listing.getD []).filterMap (extractNumber pfxOpt)

/-- Rust `Iterator::max` on the matched numbers. -/
def listMax? : List Nat → Option Nat
  | [] => none
  | a :: as => some (as.foldl max a)

/-- `find_next_migration_number` (src/resources/migration.rs): the maximum
matched number plus one, or 1 when no entry matches. -/
def find_next_migration_number (listing : Option (List String))
    (pfxOpt : Option String) : Nat :=
  match listMax? (matchedNumbers listing pfxOpt) with
  | some n => n + 1
  | none => 1

/-- The matcher as claim C3 words it, for comparison with the code's
`extractNumber`: the whole filename decomposes as the configured
filename-pattern literal, then a run of at least four digits, then an
underscore, then a suffix ending in `.sql`; the number carried is the value
of the whole digit run. -/
def specExtractNumber (pfxOpt : Option String) (name : String) : Option Nat :=
  match dropPre ((pfxOpt.getD "").toList) name.toList with
  | none => none
  | some r =>
    let ds := r.takeWhile Char.isDigit
    let rest := r.dropWhile Char.isDigit
    if 4 ≤ ds.length then
      match rest with
      | '_' :: tail =>
        if 4 ≤ tail.length && tail.drop (tail.length - 4) == ['.', 's', 'q', 'l'] then
          some (ds.foldl (fun acc c => acc * 10 + digitVal c) 0)
        else
          none
      | _ => none
    else
      none

/-- The next sequence number as claim C3 words the matcher. -/
def specNextSequence (listing : Option (List String)) (pfxOpt : Option String) :
    Nat :=
  match listMax? ((listing.getD []).filterMap (specExtractNumber pfxOpt)) with
  | some n => n + 1
  | none => 1

/-- Abstract live/target schema model produced by introspection or parsing;
the engine treats it as opaque. -/
structure SchemaModel where
  tag : String
deriving DecidableEq

/-- Abstract schema-change operation of the external diff stage; `dbg` is its
Rust `Debug` rendering (used for the operation summaries). -/
structure DiffOp where
  dbg : String
deriving DecidableEq

/-- `pgmold::apply::ApplyOptions`. -/
structure ApplyOptions where
  dry_run : Bool
  allow_destructive : Bool
deriving DecidableEq

/-- `pgmold::apply::ApplyResult` (the fields the callers use). -/
structure ApplyResult where
  lint_results : List LintFinding
  operations : List DiffOp
deriving DecidableEq

/-- Oracles for the external pgmold toolkit calls and the ambient
apply-phase environment (clock, write outcomes). -/
structure PgEnv where
  connect : String → Except String Unit
  introspect : List String → Except String SchemaModel
  parse_sql_file : String → Except String SchemaModel
  compute_diff : SchemaModel → SchemaModel → List DiffOp
  lint_migration_plan : List DiffOp → LintOptions → List LintFinding
  generate_sql : List DiffOp → List String
  execute_sql : List DiffOp → Except String Unit
  now_compact : String
  now_rfc3339 : String
  create_dir_ok : Bool
  write_ok : Bool

/-- Side effects attempted by a migration-resource apply. -/
structure MigEffects where
  deleted_old : Bool
  attempted_mkdir : Bool
  wrote_file : Option String
  generated_sql : Bool
deriving DecidableEq

/-- No side effect attempted. -/
def noMigEffects : MigEffects :=
  { deleted_old := false, attempted_mkdir := false, wrote_file := none,
    generated_sql := false }

/-- `MigrationResourceState` (src/resources/migration.rs); the Rust field
`prefix` is a Lean keyword and is embedded as `pfx`. -/
structure MigrationResourceState where
  id : String
  schema_file : String
  database_url : Option String
  output_dir : String
  pfx : Option String
  target_schemas : Option (List String)
  schema_hash : Option String
  migration_file : Option String
  migration_number : Option Nat
  operations : Option (List String)
deriving DecidableEq

/-- `MigrationResource::plan_create` (src/resources/migration.rs): require a
database URL, an existing schema file and an existing output-dir parent,
then derive the content hash and the content-based identity.  Plan functions
perform no mutation; they only read the declared inputs. -/
def MigrationResource.plan_create (fs : FS) (sha : String → String)
    (proposed_state : MigrationResourceState) :
    Except (List String) MigrationResourceState :=
  if proposed_state.database_url.isNone then
    .error ["database_url is required"]
  else if !(fsExists fs proposed_state.schema_file) then
    .error ["schema_file not found: " ++ proposed_state.schema_file]
  else
    match fs.parentOf proposed_state.output_dir with
    | some parent =>
      if !(fsExists fs parent) then
        .error ["output_dir parent does not exist: " ++ parent]
      else
        match compute_schema_hash sha fs proposed_state.schema_file with
        | none => .error ["Failed to read schema file"]
        | some schema_hash =>
          .ok { proposed_state with
                id := "pgmold-migration-" ++ schema_hash.take 8,
                schema_hash := some schema_hash }
    | none =>
      match compute_schema_hash sha fs proposed_state.schema_file with
      | none => .error ["Failed to read schema file"]
      | some schema_hash =>
        .ok { proposed_state with
              id := "pgmold-migration-" ++ schema_hash.take 8,
              schema_hash := some schema_hash }

/-- `MigrationResource::plan_update` (src/resources/migration.rs): a pure
pass-through of the proposed state. -/
def MigrationResource.plan_update
    (prior_state proposed_state : MigrationResourceState) :
    Except (List String) MigrationResourceState :=
  .ok proposed_state

/-- Zero-pad to four digits, as the Rust format specifier `{:04}` does. -/
def pad4 (n : Nat) : String :=
  String.mk (List.replicate (4 - (toString n).length) '0') ++ toString n

/-- The tail both migration-resource apply paths share verbatim after the
lint gate (src/resources/migration.rs): allocate the next number from the
directory listing, render the SQL and the operation summaries, create the
output directory, and write `<pfx><number:04>_<timestamp>.sql`. -/
def migrationWriteStep (env : PgEnv) (fs : FS)
    (planned_state : MigrationResourceState) (operations : List DiffOp)
    (eff0 : MigEffects) :
    Except (List String) MigrationResourceState × MigEffects :=
  let migration_number :=
    find_next_migration_number (fs.listDir planned_state.output_dir)
      planned_state.pfx
  let sql := env.generate_sql operations
  let op_summaries := operations.map DiffOp.dbg
  let eff1 := { eff0 with generated_sql := true, attempted_mkdir := true }
  if !env.create_dir_ok then
    (.error ["Failed to create output directory"], eff1)
  else
    let filename := (planned_state.pfx.getD "") ++ pad4 migration_number ++
      "_" ++ env.now_compact ++ ".sql"
    let filepath := planned_state.output_dir ++ "/" ++ filename
    if !env.write_ok then
      (.error ["Failed to write migration file"], eff1)
    else
      (.ok { planned_state with
             migration_file := some filepath,
             migration_number := some migration_number,
             operations := some op_summaries },
       { eff1 with wrote_file := some filepath })

/-- `MigrationResource::create` (src/resources/migration.rs): connect,
introspect, parse, diff; an empty diff records an empty operation list and
succeeds with no further action; otherwise the lint gate aborts with every
error-severity message when a blocking finding exists, else the migration
file is numbered and written. -/
def MigrationResource.create (env : PgEnv) (fs : FS)
    (planned_state : MigrationResourceState) :
    Except (List String) MigrationResourceState × MigEffects :=
  match planned_state.database_url with
  | none => (.error [], noMigEffects)
  | some db_url =>
    match env.connect db_url with
    | .error e =>
      (.error ["Failed to connect to database: " ++ sanitize_db_error e],
       noMigEffects)
    | .ok _ =>
      match env.introspect (planned_state.target_schemas.getD ["public"]) with
      | .error e =>
        (.error ["Failed to introspect database: " ++ e], noMigEffects)
      | .ok current =>
        match env.parse_sql_file planned_state.schema_file with
        | .error e =>
          (.error ["Failed to parse schema file: " ++ e], noMigEffects)
        | .ok target =>
          let operations := env.compute_diff current target
          if operations.isEmpty then
            (.ok { planned_state with operations := some [] }, noMigEffects)
          else
            let lint_results := env.lint_migration_plan operations
              { allow_destructive := false, is_production := false }
            if has_errors lint_results then
              (.error (errorMessages lint_results), noMigEffects)
            else
              migrationWriteStep env fs planned_state operations noMigEffects

/-- `MigrationResource::update` (src/resources/migration.rs): identical to
`create` up to and including the lint gate; then the prior artifact, when it
still exists on disk, is deleted best-effort before the shared numbering and
write step runs. -/
def MigrationResource.update (env : PgEnv) (fs : FS)
    (prior_state planned_state : MigrationResourceState) :
    Except (List String) MigrationResourceState × MigEffects :=
  match planned_state.database_url with
  | none => (.error [], noMigEffects)
  | some db_url =>
    match env.connect db_url with
    | .error e =>
      (.error ["Failed to connect to database: " ++ sanitize_db_error e],
       noMigEffects)
    | .ok _ =>
      match env.introspect (planned_state.target_schemas.getD ["public"]) with
      | .error e =>
        (.error ["Failed to introspect database: " ++ e], noMigEffects)
      | .ok current =>
        match env.parse_sql_file planned_state.schema_file with
        | .error e =>
          (.error ["Failed to parse schema file: " ++ e], noMigEffects)
        | .ok target =>
          let operations := env.compute_diff current target
          if operations.isEmpty then
            (.ok { planned_state with operations := some [] }, noMigEffects)
          else
            let lint_results := env.lint_migration_plan operations
              { allow_destructive := false, is_production := false }
            if has_errors lint_results then
              (.error (errorMessages lint_results), noMigEffects)
            else
              let deleted :=
                match prior_state.migration_file with
                | some old_file => fsExists fs old_file
                | none => false
              migrationWriteStep env fs planned_state operations
                { noMigEffects with deleted_old := deleted }

/-- `SchemaResourceState` (src/resources/schema.rs). -/
structure SchemaResourceState where
  id : TValue String
  schema_file : TValue String
  database_url : TValue String
  target_schemas : TValue (List (TValue String))
  allow_destructive : TValue Bool
  zero_downtime : TValue Bool
  schema_hash : TValue String
  applied_at : TValue String
  migration_count : TValue Int
deriving DecidableEq

/-- `SchemaResource::plan_create` (src/resources/schema.rs): require a
non-null database URL and an existing schema file; derive the content hash
and the canonical-path identity; mark `applied_at` and `migration_count`
unknown so they are populated only at apply. -/
def SchemaResource.plan_create (fs : FS) (sha : String → String)
    (proposed_state : SchemaResourceState) :
    Except (List String) SchemaResourceState :=
  if proposed_state.database_url.is_null then
    .error ["database_url is required (either at resource or provider level)"]
  else if !(fsExists fs proposed_state.schema_file.as_str) then
    .error ["schema_file not found: " ++ proposed_state.schema_file.as_str]
  else
    match compute_schema_hash sha fs proposed_state.schema_file.as_str with
    | none => .error ["Failed to read schema file"]
    | some schema_hash =>
      .ok { proposed_state with
            id := .value ("pgmold-" ++
              (compute_path_hash sha fs proposed_state.schema_file.as_str).take 8),
            schema_hash := .value schema_hash,
            applied_at := .unknown,
            migration_count := .unknown }

/-- `SchemaResource::plan_update` (src/resources/schema.rs): the same
computation as `plan_create` except that the `database_url` null check is
absent from the source. -/
def SchemaResource.plan_update (fs : FS) (sha : String → String)
    (prior_state proposed_state : SchemaResourceState) :
    Except (List String) SchemaResourceState :=
  if !(fsExists fs proposed_state.schema_file.as_str) then
    .error ["schema_file not found: " ++ proposed_state.schema_file.as_str]
  else
    match compute_schema_hash sha fs proposed_state.schema_file.as_str with
    | none => .error ["Failed to read schema file"]
    | some schema_hash =>
      .ok { proposed_state with
            id := .value ("pgmold-" ++
              (compute_path_hash sha fs proposed_state.schema_file.as_str).take 8),
            schema_hash := .value schema_hash,
            applied_at := .unknown,
            migration_count := .unknown }

/-- Modelled from the spec: `pgmold::apply::apply_migration` is in the
external pgmold crate (only its caller is in this repository).  Spec §4.4:
the apply pipeline introspects the live schema, parses the desired file,
computes the diff; an empty diff yields success with zero operations and no
further action; otherwise the lint gate runs and a blocking finding leaves
the database untouched (the findings are returned for the caller to report);
otherwise the SQL is generated and executed.  The second component records
whether SQL execution was attempted against the database. -/
def apply_migration (env : PgEnv) (schema_file : String) (opts : ApplyOptions) :
    Except String ApplyResult × Bool :=
  match env.introspect ["public"] with
  | .error e => (.error e, false)
  | .ok current =>
    match env.parse_sql_file schema_file with
    | .error e => (.error e, false)
    | .ok target =>
      let operations := env.compute_diff current target
      if operations.isEmpty then
        (.ok { lint_results := [], operations := [] }, false)
      else
        let findings := env.lint_migration_plan operations
          { allow_destructive := opts.allow_destructive, is_production := false }
        if has_errors findings then
          (.ok { lint_results := findings, operations := operations }, false)
        else
          match env.execute_sql operations with
          | .error e => (.error e, true)
          | .ok _ =>
            (.ok { lint_results := findings, operations := operations }, true)

/-- `SchemaResource::create` (src/resources/schema.rs): connect (sanitizing a
connection failure), run the apply pipeline, re-check the lint results and
report every error-severity message when blocked, else record the timestamp
and the operation count.  The Bool records whether SQL execution was
attempted against the database. -/
def SchemaResource.create (env : PgEnv) (planned_state : SchemaResourceState) :
    Except (List String) SchemaResourceState × Bool :=
  match env.connect planned_state.database_url.as_str with
  | .error e =>
    (.error ["Failed to connect to database: " ++ sanitize_db_error e], false)
  | .ok _ =>
    match apply_migration env planned_state.schema_file.as_str
        { dry_run := false,
          allow_destructive := planned_state.allow_destructive.unwrap_or false } with
    | (.error e, executed) => (.error ["Migration failed: " ++ e], executed)
    | (.ok result, executed) =>
      if has_errors result.lint_results then
        (.error (errorMessages result.lint_results), executed)
      else
        (.ok { planned_state with
               applied_at := .value env.now_rfc3339,
               migration_count := .value (Int.ofNat result.operations.length) },
         executed)

/-- `SchemaResource::update` (src/resources/schema.rs): the source body is
verbatim identical to `create` and ignores the prior state. -/
def SchemaResource.update (env : PgEnv)
    (prior_state planned_state : SchemaResourceState) :
    Except (List String) SchemaResourceState × Bool :=
  SchemaResource.create env planned_state

/-- Decidable equality for `Except`, used to evaluate lifecycle results on
concrete inputs. -/
instance exceptDecEq {ε α : Type} [DecidableEq ε] [DecidableEq α] :
    DecidableEq (Except ε α) := fun a b =>
  match a, b with
  | .error e, .error f =>
    if h : e = f then .isTrue (by rw [h])
    else .isFalse (fun hh => h (by injection hh))
  | .error _, .ok _ => .isFalse (fun hh => Except.noConfusion hh)
  | .ok _, .error _ => .isFalse (fun hh => Except.noConfusion hh)
  | .ok x, .ok y =>
    if h : x = y then .isTrue (by rw [h])
    else .isFalse (fun hh => h (by injection hh))

/-- Concrete digest stand-in used by the witnesses. -/
def shaW (s : String) : String := "d1" ++ s ++ "e5f60708"

/-- Concrete filesystem: a readable schema file, an existing output
directory whose parent exists, one stale artifact, an empty listing. -/
def fsW : FS :=
  { files := fun p =>
      if p == "db/schema.sql" then some (some "CREATE TABLE t (id INT);")
      else if p == "db/migrations/0009_old.sql" then some (some "old")
      else none,
    dirExists := fun p => p == "db" || p == "db/migrations",
    parentOf := fun p => if p == "db/migrations" then some "db" else none,
    canonical := fun p => some ("/repo/" ++ p),
    listDir := fun _ => some [] }

/-- Concrete filesystem with nothing on it. -/
def fsNone : FS :=
  { files := fun _ => none, dirExists := fun _ => false,
    parentOf := fun _ => none, canonical := fun _ => none,
    listDir := fun _ => none }

/-- Concrete valid migration-resource proposed state. -/
def migW : MigrationResourceState :=
  { id := "", schema_file := "db/schema.sql",
    database_url := some "postgres://u@h/d", output_dir := "db/migrations",
    pfx := none, target_schemas := none, schema_hash := none,
    migration_file := none, migration_number := none, operations := none }

/-- `migW` with the database URL absent. -/
def migNoUrl : MigrationResourceState := { migW with database_url := none }

/-- `migW` with a missing schema file. -/
def migMissing : MigrationResourceState := { migW with schema_file := "missing.sql" }

/-- `migW` with stale computed outputs still present in the proposed state. -/
def migCarried : MigrationResourceState :=
  { migW with
    operations := some ["LEFTOVER"],
    migration_number := some 9,
    migration_file := some "db/migrations/0009_old.sql" }

/-- Concrete valid schema-resource proposed state. -/
def schW : SchemaResourceState :=
  { id := .null, schema_file := .value "db/schema.sql",
    database_url := .value "postgres://u@h/d", target_schemas := .null,
    allow_destructive := .null, zero_downtime := .null, schema_hash := .null,
    applied_at := .null, migration_count := .null }

/-- `schW` with a null database URL. -/
def schWnull : SchemaResourceState := { schW with database_url := .null }

/-- Concrete oracle environment whose diff is non-empty and whose lint stage
reports two error-severity findings and one warning. -/
def envBlock : PgEnv :=
  { connect := fun _ => .ok (),
    introspect := fun _ => .ok { tag := "live" },
    parse_sql_file := fun _ => .ok { tag := "desired" },
    compute_diff := fun _ _ => [{ dbg := "DropTable t" }, { dbg := "DropColumn c" }],
    lint_migration_plan := fun _ _ =>
      [{ severity := .error, message := "destructive drop of table t" },
       { severity := .warning, message := "minor style finding" },
       { severity := .error, message := "destructive drop of column c" }],
    generate_sql := fun ops => ops.map DiffOp.dbg,
    execute_sql := fun _ => .ok (),
    now_compact := "20260212090000",
    now_rfc3339 := "2026-02-12T09:00:00+00:00",
    create_dir_ok := true, write_ok := true }

/-- `envBlock` with an empty diff. -/
def envEmptyDiff : PgEnv := { envBlock with compute_diff := fun _ _ => [] }

/-- `envBlock` with only a warning finding (the lint gate passes). -/
def envClean : PgEnv :=
  { envBlock with
    lint_migration_plan := fun _ _ =>
      [{ severity := .warning, message := "minor style finding" }] }

/-- `envBlock` whose connection attempt fails with a credential-bearing
error message. -/
def envConnFail : PgEnv :=
  { envBlock with
    connect := fun _ =>
      Except.error "FATAL: password authentication failed for user" }

/-- Every element of `a :: l` is bounded by the left `max` fold. -/
theorem foldlMax_le (l : List Nat) : ∀ a x, x ∈ a :: l → x ≤ l.foldl max a := by
  induction l with
  | nil =>
    intro a x hx
    simp only [List.mem_singleton] at hx
    simp [hx]
  | cons b t ih =>
    intro a x hx
    simp only [List.foldl]
    rcases List.mem_cons.mp hx with h | h
    · subst h
      exact le_trans (le_max_left x b)
        (ih (max x b) (max x b) (List.mem_cons_self _ _))
    · rcases List.mem_cons.mp h with h2 | h2
      · subst h2
        exact le_trans (le_max_right a x)
          (ih (max a x) (max a x) (List.mem_cons_self _ _))
      · exact ih (max a b) x (List.mem_cons_of_mem _ h2)

/-- The left `max` fold is one of the elements of `a :: l`. -/
theorem foldlMax_mem (l : List Nat) : ∀ a, l.foldl max a ∈ a :: l := by
  induction l with
  | nil => intro a; simp
  | cons b t ih =>
    intro a
    simp only [List.foldl]
    rcases List.mem_cons.mp (ih (max a b)) with h | h
    · rcases max_choice a b with h2 | h2
      · rw [h, h2]; exact List.mem_cons_self _ _
      · rw [h, h2]; exact List.mem_cons_of_mem _ (List.mem_cons_self _ _)
    · exact List.mem_cons_of_mem _ (List.mem_cons_of_mem _ h)

/-- `listMax?` returns exactly the greatest element of a non-empty list. -/
theorem listMax?_eq_some_iff (l : List Nat) (m : Nat) :
    listMax? l = some m ↔ m ∈ l ∧ ∀ x ∈ l, x ≤ m := by
  cases l with
  | nil => simp [listMax?]
  | cons a t =>
    simp only [listMax?, Option.some_inj]
    constructor
    · rintro rfl
      exact ⟨foldlMax_mem t a, fun x hx => foldlMax_le t a x hx⟩
    · rintro ⟨hm, hb⟩
      exact le_antisymm (hb _ (foldlMax_mem t a)) (foldlMax_le t a m hm)

/-- C2: `find_next_migration_number` returns 1 on an empty or non-existent
directory; 3 when the matching filenames carry exactly the numbers {1,2};
8 for {1,3,7} (gaps are never filled); and in general `max(matches) + 1`,
or 1 when no entry matches. -/
theorem C2_next_sequence :
    (∀ p, find_next_migration_number none p = 1) ∧
    (∀ p, find_next_migration_number (some []) p = 1) ∧
    (∀ d p, (∀ n, n ∈ matchedNumbers d p ↔ (n = 1 ∨ n = 2)) →
      find_next_migration_number d p = 3) ∧
    (∀ d p, (∀ n, n ∈ matchedNumbers d p ↔ (n = 1 ∨ n = 3 ∨ n = 7)) →
      find_next_migration_number d p = 8) ∧
    (∀ d p m, listMax? (matchedNumbers d p) = some m →
      find_next_migration_number d p = m + 1) ∧
    (∀ d p, matchedNumbers d p = [] → find_next_migration_number d p = 1) := by
  refine ⟨fun p => rfl, fun p => rfl, ?_, ?_, ?_, ?_⟩
  · intro d p h
    have hmax : listMax? (matchedNumbers d p) = some 2 :=
      (listMax?_eq_some_iff _ _).mpr ⟨(h 2).mpr (Or.inr rfl),
        fun x hx => by rcases (h x).mp hx with h1 | h1 <;> omega⟩
    simp [find_next_migration_number, hmax]
  · intro d p h
    have hmax : listMax? (matchedNumbers d p) = some 7 :=
      (listMax?_eq_some_iff _ _).mpr ⟨(h 7).mpr (Or.inr (Or.inr rfl)),
        fun x hx => by rcases (h x).mp hx with h1 | h1 | h1 <;> omega⟩
    simp [find_next_migration_number, hmax]
  · intro d p m h
    simp [find_next_migration_number, h]
  · intro d p h
    simp [find_next_migration_number, h, listMax?]

/-- Witness for C2 at concrete directory listings. -/
theorem C2_witness :
    find_next_migration_number
      (some ["0001_20240101.sql", "0002_20240102.sql"]) none = 3 ∧
    find_next_migration_number
      (some ["0001_a.sql", "0003_b.sql", "0007_c.sql"]) none = 8 := by
  constructor
  · apply C2_next_sequence.2.2.1
    have h : matchedNumbers
        (some ["0001_20240101.sql", "0002_20240102.sql"]) none = [1, 2] := by
      decide
    intro n
    rw [h]
    simp
  · apply C2_next_sequence.2.2.2.1
    have h : matchedNumbers
        (some ["0001_a.sql", "0003_b.sql", "0007_c.sql"]) none = [1, 3, 7] := by
      decide
    intro n
    rw [h]
    simp

/-- `dropPre` succeeds exactly on lists starting with the literal pattern. -/
theorem dropPre_eq_some_iff (p : List Char) :
    ∀ s r, dropPre p s = some r ↔ s = p ++ r := by
  induction p with
  | nil =>
    intro s r
    simp [dropPre]
  | cons pc pt ih =>
    intro s r
    cases s with
    | nil => simp [dropPre]
    | cons c cs =>
      simp only [dropPre, List.cons_append, List.cons.injEq]
      by_cases hc : c = pc
      · simp [hc, ih cs r]
      · have hb : (c == pc) = false := by simp [hc]
        simp [hb, hc]

/-- `matchHere` succeeds at a position where the pattern literal is followed
by four digits, an underscore and a `.*\.sql$` tail, capturing those digits. -/
theorem matchHere_eq_some_append (pfxL : List Char) (a b c d : Char)
    (rest : List Char)
    (ha : a.isDigit = true) (hb : b.isDigit = true) (hc : c.isDigit = true)
    (hd : d.isDigit = true) (ht : dotSqlTail rest = true) :
    matchHere pfxL (pfxL ++ a :: b :: c :: d :: '_' :: rest) =
      some (parse4 a b c d) := by
  have hdp : dropPre pfxL (pfxL ++ a :: b :: c :: d :: '_' :: rest) =
      some (a :: b :: c :: d :: '_' :: rest) :=
    (dropPre_eq_some_iff pfxL _ _).mpr rfl
  unfold matchHere
  rw [hdp]
  simp [ha, hb, hc, hd, ht]

/-- Reduction of `matchHere` at a long-enough remainder. -/
theorem matchHere_eq_of_dropPre (pfxL s : List Char) (a b c d u : Char)
    (rest : List Char)
    (hdp : dropPre pfxL s = some (a :: b :: c :: d :: u :: rest)) :
    matchHere pfxL s =
      if (u == '_' && a.isDigit && b.isDigit && c.isDigit && d.isDigit &&
          dotSqlTail rest) = true then
        some (parse4 a b c d)
      else
        none := by
  unfold matchHere
  rw [hdp]

/-- Exactly which suffixes `matchHere` accepts. -/
theorem matchHere_isSome_iff (pfxL s : List Char) :
    (matchHere pfxL s).isSome = true ↔
      ∃ a b c d rest, s = pfxL ++ a :: b :: c :: d :: '_' :: rest ∧
        (a.isDigit = true ∧ b.isDigit = true ∧ c.isDigit = true ∧
         d.isDigit = true) ∧ dotSqlTail rest = true := by
  constructor
  · intro h
    cases hdp : dropPre pfxL s with
    | none => unfold matchHere at h; rw [hdp] at h; simp at h
    | some r =>
      have hs : s = pfxL ++ r := (dropPre_eq_some_iff pfxL s r).mp hdp
      rcases r with _ | ⟨a, _ | ⟨b, _ | ⟨c, _ | ⟨d, _ | ⟨u, rest⟩⟩⟩⟩⟩
      · unfold matchHere at h; rw [hdp] at h; simp at h
      · unfold matchHere at h; rw [hdp] at h; simp at h
      · unfold matchHere at h; rw [hdp] at h; simp at h
      · unfold matchHere at h; rw [hdp] at h; simp at h
      · unfold matchHere at h; rw [hdp] at h; simp at h
      · by_cases hcond : (u == '_' && a.isDigit && b.isDigit && c.isDigit &&
            d.isDigit && dotSqlTail rest) = true
        · simp only [Bool.and_eq_true, beq_iff_eq] at hcond
          obtain ⟨⟨⟨⟨⟨hu, ha⟩, hb⟩, hc2⟩, hd2⟩, ht⟩ := hcond
          exact ⟨a, b, c, d, rest, by rw [hs, hu], ⟨ha, hb, hc2, hd2⟩, ht⟩
        · rw [matchHere_eq_of_dropPre pfxL s a b c d u rest hdp] at h
          rw [if_neg hcond] at h
          simp at h
  · rintro ⟨a, b, c, d, rest, rfl, ⟨ha, hb, hc2, hd2⟩, ht⟩
    rw [matchHere_eq_some_append pfxL a b c d rest ha hb hc2 hd2 ht]
    rfl

/-- A successful match at the head position is returned immediately. -/
theorem findCapture_head (pfxL l : List Char) (n : Nat)
    (h : matchHere pfxL l = some n) : findCapture pfxL l = some n := by
  cases l with
  | nil => simpa [findCapture] using h
  | cons c t => simp [findCapture, h]

/-- `findCapture` succeeds exactly when some suffix position matches. -/
theorem findCapture_isSome_iff (pfxL : List Char) :
    ∀ l, (findCapture pfxL l).isSome = true ↔
      ∃ pre suf, l = pre ++ suf ∧ (matchHere pfxL suf).isSome = true := by
  intro l
  induction l with
  | nil =>
    simp only [findCapture]
    constructor
    · intro h
      exact ⟨[], [], rfl, h⟩
    · rintro ⟨pre, suf, heq, h⟩
      have h2 := List.append_eq_nil.mp heq.symm
      rw [h2.2] at h
      exact h
  | cons c t ih =>
    constructor
    · intro h
      simp only [findCapture] at h
      cases hm : matchHere pfxL (c :: t) with
      | some n => exact ⟨[], c :: t, rfl, by simp [hm]⟩
      | none =>
        rw [hm] at h
        obtain ⟨pre, suf, heq, hP⟩ := ih.mp h
        exact ⟨c :: pre, suf, by rw [heq, List.cons_append], hP⟩
    · rintro ⟨pre, suf, heq, hP⟩
      cases pre with
      | nil =>
        simp only [List.nil_append] at heq
        subst heq
        simp only [findCapture]
        cases hm : matchHere pfxL (c :: t) with
        | some n => rfl
        | none => rw [hm] at hP; simp at hP
      | cons pc pt =>
        simp only [List.cons_append, List.cons.injEq] at heq
        obtain ⟨hcp, htl⟩ := heq
        simp only [findCapture]
        cases hm : matchHere pfxL (c :: t) with
        | some n => rfl
        | none => exact ih.mpr ⟨pt, suf, htl, hP⟩

/-- C3 counterexample: with the configured pattern literal "V", the entry
"XV0007_a.sql" does not have the claimed form (it does not start with "V"),
yet the code's matcher counts it with number 7, so the next sequence number
becomes 8 where the claim predicts the entry is ignored (next number 1). -/
theorem C3_counterexample :
    extractNumber (some "V") "XV0007_a.sql" = some 7 ∧
    specExtractNumber (some "V") "XV0007_a.sql" = none ∧
    find_next_migration_number (some ["XV0007_a.sql"]) (some "V") = 8 ∧
    specNextSequence (some ["XV0007_a.sql"]) (some "V") = 1 ∧
    find_next_migration_number (some ["XV0007_a.sql"]) (some "V") ≠
      specNextSequence (some ["XV0007_a.sql"]) (some "V") := by
  refine ⟨by decide, by decide, by decide, by decide, by decide⟩

/-- C3 amended: an entry contributes iff its name contains, at some position,
the configured pattern literal followed by exactly four digits and an
underscore with the remainder ending in `.sql` (newline-free before the
extension) — the name need not start with that literal, and of a longer
digit run only a four-digit window matches.  A name that does start with
literal + four digits + underscore + `.sql`-tail contributes exactly the
value of those four digits. -/
theorem C3_containment :
    (∀ p name, (extractNumber p name).isSome = true ↔
      ∃ pre a b c d rest,
        name.toList = pre ++ (p.getD "").toList ++
          a :: b :: c :: d :: '_' :: rest ∧
        (a.isDigit = true ∧ b.isDigit = true ∧ c.isDigit = true ∧
         d.isDigit = true) ∧ dotSqlTail rest = true) ∧
    (∀ p name a b c d rest,
      name.toList = (p.getD "").toList ++ a :: b :: c :: d :: '_' :: rest →
      a.isDigit = true → b.isDigit = true → c.isDigit = true →
      d.isDigit = true → dotSqlTail rest = true →
      extractNumber p name = some (parse4 a b c d)) := by
  constructor
  · intro p name
    rw [extractNumber, findCapture_isSome_iff]
    constructor
    · rintro ⟨pre, suf, heq, hP⟩
      obtain ⟨a, b, c, d, rest, hsuf, hdig, ht⟩ :=
        (matchHere_isSome_iff _ _).mp hP
      exact ⟨pre, a, b, c, d, rest,
        by rw [heq, hsuf, List.append_assoc], hdig, ht⟩
    · rintro ⟨pre, a, b, c, d, rest, heq, hdig, ht⟩
      refine ⟨pre, (p.getD "").toList ++ a :: b :: c :: d :: '_' :: rest,
        ?_, ?_⟩
      · rw [heq, List.append_assoc]
      · exact (matchHere_isSome_iff _ _).mpr ⟨a, b, c, d, rest, rfl, hdig, ht⟩
  · intro p name a b c d rest heq ha hb hc2 hd2 ht
    unfold extractNumber
    rw [heq]
    exact findCapture_head _ _ _ (matchHere_eq_some_append _ a b c d rest ha hb hc2 hd2 ht)

/-- Witness for the amended C3 at a concrete spec-form filename. -/
theorem C3_witness : extractNumber (some "V") "V0012_x.sql" = some 12 := by
  have h := C3_containment.2 (some "V") "V0012_x.sql" '0' '0' '1' '2'
    ("x.sql".toList) (by decide) (by decide) (by decide) (by decide)
    (by decide) (by decide)
  exact h.trans (by decide)

/-- A successful content hash reveals the file's text. -/
theorem compute_schema_hash_eq_some (sha : String → String) (fs : FS)
    (path sh : String) (h : compute_schema_hash sha fs path = some sh) :
    ∃ c, fs.files path = some (some c) ∧ sh = sha c := by
  unfold compute_schema_hash at h
  cases hf : fs.files path with
  | none => rw [hf] at h; simp at h
  | some o =>
    cases o with
    | none => rw [hf] at h; simp at h
    | some c =>
      rw [hf] at h
      simp only [Option.some_inj] at h
      exact ⟨c, rfl, h.symm⟩

/-- Forward run of `MigrationResource.plan_create` with all checks passing. -/
theorem mig_plan_create_ok_of (fs : FS) (sha : String → String)
    (p : MigrationResourceState) (c : String)
    (hurl : p.database_url.isNone = false)
    (hex : fsExists fs p.schema_file = true)
    (hpar : ∀ parent, fs.parentOf p.output_dir = some parent →
      fsExists fs parent = true)
    (hc : fs.files p.schema_file = some (some c)) :
    MigrationResource.plan_create fs sha p =
      .ok { p with
            id := "pgmold-migration-" ++ (sha c).take 8,
            schema_hash := some (sha c) } := by
  have hcs : compute_schema_hash sha fs p.schema_file = some (sha c) := by
    unfold compute_schema_hash
    rw [hc]
  cases hp : fs.parentOf p.output_dir with
  | some parent =>
    have hpe := hpar parent hp
    simp [MigrationResource.plan_create, hurl, hex, hp, hpe, hcs]
  | none =>
    simp [MigrationResource.plan_create, hurl, hex, hp, hcs]

/-- Inversion of a successful `MigrationResource.plan_create`. -/
theorem mig_plan_create_ok_inv (fs : FS) (sha : String → String)
    (p s : MigrationResourceState)
    (h : MigrationResource.plan_create fs sha p = .ok s) :
    p.database_url.isNone = false ∧ fsExists fs p.schema_file = true ∧
    (∀ parent, fs.parentOf p.output_dir = some parent →
      fsExists fs parent = true) ∧
    ∃ sh, compute_schema_hash sha fs p.schema_file = some sh ∧
      s = { p with
            id := "pgmold-migration-" ++ sh.take 8,
            schema_hash := some sh } := by
  unfold MigrationResource.plan_create at h
  split at h
  · simp at h
  next hurl =>
    have hurl2 : p.database_url.isNone = false := by
      revert hurl
      cases p.database_url.isNone <;> simp
    split at h
    · simp at h
    next hex =>
      have hex2 : fsExists fs p.schema_file = true := by
        revert hex
        cases fsExists fs p.schema_file <;> simp
      refine ⟨hurl2, hex2, ?_⟩
      split at h
      next parent hp =>
        split at h
        · simp at h
        next hpe =>
          have hpe2 : fsExists fs parent = true := by
            revert hpe
            cases fsExists fs parent <;> simp
          split at h
          · simp at h
          next sh hsh =>
            injection h with h2
            refine ⟨?_, sh, hsh, h2.symm⟩
            intro q hq
            rw [hp] at hq
            injection hq with hq2
            rw [← hq2]
            exact hpe2
      next hp =>
        split at h
        · simp at h
        next sh hsh =>
          injection h with h2
          refine ⟨?_, sh, hsh, h2.symm⟩
          intro q hq
          rw [hp] at hq
          simp at hq

/-- Forward run of `SchemaResource.plan_create` with all checks passing. -/
theorem schema_plan_create_ok_of (fs : FS) (sha : String → String)
    (p : SchemaResourceState) (c : String)
    (hurl : p.database_url.is_null = false)
    (hex : fsExists fs p.schema_file.as_str = true)
    (hc : fs.files p.schema_file.as_str = some (some c)) :
    SchemaResource.plan_create fs sha p =
      .ok { p with
            id := .value ("pgmold-" ++
              (compute_path_hash sha fs p.schema_file.as_str).take 8),
            schema_hash := .value (sha c),
            applied_at := .unknown,
            migration_count := .unknown } := by
  have hcs : compute_schema_hash sha fs p.schema_file.as_str = some (sha c) := by
    unfold compute_schema_hash
    rw [hc]
  simp [SchemaResource.plan_create, hurl, hex, hcs]

/-- Inversion of a successful `SchemaResource.plan_create`. -/
theorem schema_plan_create_ok_inv (fs : FS) (sha : String → String)
    (p s : SchemaResourceState)
    (h : SchemaResource.plan_create fs sha p = .ok s) :
    p.database_url.is_null = false ∧ fsExists fs p.schema_file.as_str = true ∧
    ∃ sh, compute_schema_hash sha fs p.schema_file.as_str = some sh ∧
      s = { p with
            id := .value ("pgmold-" ++
              (compute_path_hash sha fs p.schema_file.as_str).take 8),
            schema_hash := .value sh,
            applied_at := .unknown,
            migration_count := .unknown } := by
  unfold SchemaResource.plan_create at h
  split at h
  · simp at h
  next hurl =>
    have hurl2 : p.database_url.is_null = false := by
      revert hurl
      cases p.database_url.is_null <;> simp
    split at h
    · simp at h
    next hex =>
      have hex2 : fsExists fs p.schema_file.as_str = true := by
        revert hex
        cases fsExists fs p.schema_file.as_str <;> simp
      split at h
      · simp at h
      next sh hsh =>
        injection h with h2
        exact ⟨hurl2, hex2, sh, hsh, h2.symm⟩

/-- Inversion of a successful `SchemaResource.plan_update`. -/
theorem schema_plan_update_ok_inv (fs : FS) (sha : String → String)
    (prior p s : SchemaResourceState)
    (h : SchemaResource.plan_update fs sha prior p = .ok s) :
    fsExists fs p.schema_file.as_str = true ∧
    ∃ sh, compute_schema_hash sha fs p.schema_file.as_str = some sh ∧
      s = { p with
            id := .value ("pgmold-" ++
              (compute_path_hash sha fs p.schema_file.as_str).take 8),
            schema_hash := .value sh,
            applied_at := .unknown,
            migration_count := .unknown } := by
  unfold SchemaResource.plan_update at h
  split at h
  · simp at h
  next hex =>
    have hex2 : fsExists fs p.schema_file.as_str = true := by
      revert hex
      cases fsExists fs p.schema_file.as_str <;> simp
    split at h
    · simp at h
    next sh hsh =>
      injection h with h2
      exact ⟨hex2, sh, hsh, h2.symm⟩

/-- C4 counterexample: for the migration resource, plan-update is a pure
pass-through — with the schema file missing, plan-create aborts with an
error while plan-update succeeds without recomputing anything, so
plan-update is not the identical computation re-run. -/
theorem C4_counterexample :
    MigrationResource.plan_update migMissing migMissing = .ok migMissing ∧
    MigrationResource.plan_create fsNone shaW migMissing =
      .error ["schema_file not found: missing.sql"] ∧
    MigrationResource.plan_update migMissing migMissing ≠
      MigrationResource.plan_create fsNone shaW migMissing := by
  refine ⟨rfl, by decide, by decide⟩

/-- C4 amended: for the schema resource, plan-update performs the identical
computation to plan-create (recomputing hash and identity, aborting on a
missing schema file) except that it omits plan-create's database-URL null
check; for the migration resource, plan-update is a pure pass-through of
the proposed state, with no recomputation and no file check. -/
theorem C4_plan_update (fs : FS) (sha : String → String)
    (prior p : SchemaResourceState) (priorM pM : MigrationResourceState) :
    (p.database_url.is_null = false →
      SchemaResource.plan_update fs sha prior p =
        SchemaResource.plan_create fs sha p) ∧
    (fsExists fs p.schema_file.as_str = false →
      SchemaResource.plan_update fs sha prior p =
        .error ["schema_file not found: " ++ p.schema_file.as_str]) ∧
    MigrationResource.plan_update priorM pM = .ok pM := by
  refine ⟨?_, ?_, rfl⟩
  · intro h
    simp [SchemaResource.plan_update, SchemaResource.plan_create, h]
  · intro h
    simp [SchemaResource.plan_update, h]

/-- Witness for the amended C4 at concrete inputs. -/
theorem C4_witness :
    SchemaResource.plan_update fsW shaW schW schW =
      SchemaResource.plan_create fsW shaW schW ∧
    SchemaResource.plan_update fsNone shaW schW schW =
      .error ["schema_file not found: db/schema.sql"] ∧
    MigrationResource.plan_update migW migW = .ok migW := by
  refine ⟨(C4_plan_update fsW shaW schW schW migW migW).1 (by decide),
    (C4_plan_update fsNone shaW schW schW migW migW).2.1 (by decide),
    (C4_plan_update fsNone shaW schW schW migW migW).2.2⟩

/-- C5 counterexample: a successful migration-resource plan-create carries
the proposed state's stale computed outputs (operation list, sequence
number, artifact path) into the planned state instead of marking them
absent or unknown. -/
theorem C5_counterexample :
    MigrationResource.plan_create fsW shaW migCarried =
      .ok { migCarried with
            id := "pgmold-migration-d1CREATE",
            schema_hash := some "d1CREATE TABLE t (id INT);e5f60708" } ∧
    MigrationResourceState.operations
      { migCarried with
        id := "pgmold-migration-d1CREATE",
        schema_hash := some "d1CREATE TABLE t (id INT);e5f60708" } =
      some ["LEFTOVER"] ∧
    MigrationResourceState.migration_number
      { migCarried with
        id := "pgmold-migration-d1CREATE",
        schema_hash := some "d1CREATE TABLE t (id INT);e5f60708" } =
      some 9 := by
  refine ⟨by decide, rfl, rfl⟩

/-- C5 amended: the schema resource marks `applied_at` and `migration_count`
unknown on every successful plan-create and plan-update; the migration
resource's plan-create leaves `migration_file`, `migration_number` and
`operations` exactly as proposed (hence absent only when the proposed state
had them absent), and its plan-update passes the whole proposed state
through. -/
theorem C5_planned_outputs :
    (∀ fs sha p s, SchemaResource.plan_create fs sha p = .ok s →
      s.applied_at = TValue.unknown ∧ s.migration_count = TValue.unknown) ∧
    (∀ fs sha prior p s, SchemaResource.plan_update fs sha prior p = .ok s →
      s.applied_at = TValue.unknown ∧ s.migration_count = TValue.unknown) ∧
    (∀ fs sha p s, MigrationResource.plan_create fs sha p = .ok s →
      s.migration_file = p.migration_file ∧
      s.migration_number = p.migration_number ∧
      s.operations = p.operations) ∧
    (∀ prior p, MigrationResource.plan_update prior p = .ok p) := by
  refine ⟨?_, ?_, ?_, fun prior p => rfl⟩
  · intro fs sha p s h
    obtain ⟨-, -, sh, -, hs⟩ := schema_plan_create_ok_inv fs sha p s h
    subst hs
    exact ⟨rfl, rfl⟩
  · intro fs sha prior p s h
    obtain ⟨-, sh, -, hs⟩ := schema_plan_update_ok_inv fs sha prior p s h
    subst hs
    exact ⟨rfl, rfl⟩
  · intro fs sha p s h
    obtain ⟨-, -, -, sh, -, hs⟩ := mig_plan_create_ok_inv fs sha p s h
    subst hs
    exact ⟨rfl, rfl, rfl⟩

/-- Witness for the amended C5 at a concrete successful plan. -/
theorem C5_witness :
    MigrationResourceState.migration_file
      { migW with
        id := "pgmold-migration-d1CREATE",
        schema_hash := some "d1CREATE TABLE t (id INT);e5f60708" } =
      MigrationResourceState.migration_file migW := by
  exact (C5_planned_outputs.2.2.1 fsW shaW migW
    { migW with
      id := "pgmold-migration-d1CREATE",
      schema_hash := some "d1CREATE TABLE t (id INT);e5f60708" }
    (by decide)).1

/-- C7: for both resource kinds, plan-create fails immediately with the
input error when the database URL is null/absent — before the schema file
is touched — and, when the URL is present but the schema file does not
exist, fails with the not-found input error before any hash is computed;
the error result carries no state, so no identity or content hash is
produced, and the plan functions are pure apart from reading declared
inputs. -/
theorem C7_input_errors :
    (∀ fs sha p, p.database_url.is_null = true →
      SchemaResource.plan_create fs sha p =
        .error ["database_url is required (either at resource or provider level)"]) ∧
    (∀ fs sha p, p.database_url.is_null = false →
      fsExists fs p.schema_file.as_str = false →
      SchemaResource.plan_create fs sha p =
        .error ["schema_file not found: " ++ p.schema_file.as_str]) ∧
    (∀ fs sha p, p.database_url = none →
      MigrationResource.plan_create fs sha p =
        .error ["database_url is required"]) ∧
    (∀ fs sha p url, p.database_url = some url →
      fsExists fs p.schema_file = false →
      MigrationResource.plan_create fs sha p =
        .error ["schema_file not found: " ++ p.schema_file]) := by
  refine ⟨?_, ?_, ?_, ?_⟩
  · intro fs sha p h
    simp [SchemaResource.plan_create, h]
  · intro fs sha p h1 h2
    simp [SchemaResource.plan_create, h1, h2]
  · intro fs sha p h
    simp [MigrationResource.plan_create, h]
  · intro fs sha p url h1 h2
    simp [MigrationResource.plan_create, h1, h2]

/-- Witness for C7 at concrete inputs (scenario D: absent database URL;
and a missing schema file). -/
theorem C7_witness :
    SchemaResource.plan_create fsW shaW schWnull =
      .error ["database_url is required (either at resource or provider level)"] ∧
    SchemaResource.plan_create fsNone shaW schW =
      .error ["schema_file not found: db/schema.sql"] ∧
    MigrationResource.plan_create fsW shaW migNoUrl =
      .error ["database_url is required"] ∧
    MigrationResource.plan_create fsNone shaW migW =
      .error ["schema_file not found: db/schema.sql"] := by
  refine ⟨C7_input_errors.1 fsW shaW schWnull (by decide), ?_, ?_, ?_⟩
  · exact (C7_input_errors.2.1 fsNone shaW schW (by decide) (by decide)).trans
      (by decide)
  · exact C7_input_errors.2.2.1 fsW shaW migNoUrl (by decide)
  · exact (C7_input_errors.2.2.2 fsNone shaW migW "postgres://u@h/d"
      (by decide) (by decide)).trans (by decide)

/-- C8: resource identity is deterministic.  The migration resource's
identity is the tag "pgmold-migration-" plus the first 8 characters of the
content hash, so identical content yields identical identity regardless of
filesystem and path; the schema resource's identity is the tag "pgmold-"
plus the first 8 characters of the canonicalized-path hash, so the same
resolved path yields the same identity regardless of content; and
re-planning a planned state with unchanged inputs reproduces the same
identity. -/
theorem C8_identity :
    (∀ fs sha p c, p.database_url.isNone = false →
      fsExists fs p.schema_file = true →
      (∀ parent, fs.parentOf p.output_dir = some parent →
        fsExists fs parent = true) →
      fs.files p.schema_file = some (some c) →
      MigrationResource.plan_create fs sha p =
        .ok { p with
              id := "pgmold-migration-" ++ (sha c).take 8,
              schema_hash := some (sha c) }) ∧
    (∀ fs₁ fs₂ sha p₁ p₂ c s₁ s₂,
      fs₁.files p₁.schema_file = some (some c) →
      fs₂.files p₂.schema_file = some (some c) →
      MigrationResource.plan_create fs₁ sha p₁ = .ok s₁ →
      MigrationResource.plan_create fs₂ sha p₂ = .ok s₂ →
      s₁.id = s₂.id ∧ s₁.id = "pgmold-migration-" ++ (sha c).take 8) ∧
    (∀ fs₁ fs₂ sha p₁ p₂ cp s₁ s₂,
      fs₁.canonical p₁.schema_file.as_str = some cp →
      fs₂.canonical p₂.schema_file.as_str = some cp →
      SchemaResource.plan_create fs₁ sha p₁ = .ok s₁ →
      SchemaResource.plan_create fs₂ sha p₂ = .ok s₂ →
      s₁.id = s₂.id ∧ s₁.id = TValue.value ("pgmold-" ++ (sha cp).take 8)) ∧
    (∀ fs sha p s, MigrationResource.plan_create fs sha p = .ok s →
      ∃ s₂, MigrationResource.plan_create fs sha s = .ok s₂ ∧ s₂.id = s.id) ∧
    (∀ fs sha p s, SchemaResource.plan_create fs sha p = .ok s →
      ∃ s₂, SchemaResource.plan_create fs sha s = .ok s₂ ∧ s₂.id = s.id) := by
  refine ⟨?_, ?_, ?_, ?_, ?_⟩
  · intro fs sha p c h1 h2 h3 h4
    exact mig_plan_create_ok_of fs sha p c h1 h2 h3 h4
  · intro fs₁ fs₂ sha p₁ p₂ c s₁ s₂ hf1 hf2 h1 h2
    obtain ⟨-, -, -, sh1, hsh1, hs1⟩ := mig_plan_create_ok_inv fs₁ sha p₁ s₁ h1
    obtain ⟨-, -, -, sh2, hsh2, hs2⟩ := mig_plan_create_ok_inv fs₂ sha p₂ s₂ h2
    obtain ⟨c1, hc1, hv1⟩ := compute_schema_hash_eq_some sha fs₁ _ sh1 hsh1
    obtain ⟨c2, hc2, hv2⟩ := compute_schema_hash_eq_some sha fs₂ _ sh2 hsh2
    rw [hf1] at hc1
    rw [hf2] at hc2
    injection hc1 with hc1a
    injection hc1a with hc1b
    injection hc2 with hc2a
    injection hc2a with hc2b
    subst hs1
    subst hs2
    constructor
    · show "pgmold-migration-" ++ sh1.take 8 = "pgmold-migration-" ++ sh2.take 8
      rw [hv1, hv2, ← hc1b, ← hc2b]
    · show "pgmold-migration-" ++ sh1.take 8 =
        "pgmold-migration-" ++ (sha c).take 8
      rw [hv1, ← hc1b]
  · intro fs₁ fs₂ sha p₁ p₂ cp s₁ s₂ hcp1 hcp2 h1 h2
    obtain ⟨-, -, sh1, hsh1, hs1⟩ := schema_plan_create_ok_inv fs₁ sha p₁ s₁ h1
    obtain ⟨-, -, sh2, hsh2, hs2⟩ := schema_plan_create_ok_inv fs₂ sha p₂ s₂ h2
    have e1 : compute_path_hash sha fs₁ p₁.schema_file.as_str = sha cp := by
      unfold compute_path_hash
      rw [hcp1]
      rfl
    have e2 : compute_path_hash sha fs₂ p₂.schema_file.as_str = sha cp := by
      unfold compute_path_hash
      rw [hcp2]
      rfl
    subst hs1
    subst hs2
    constructor
    · show TValue.value ("pgmold-" ++
        (compute_path_hash sha fs₁ p₁.schema_file.as_str).take 8) =
        TValue.value ("pgmold-" ++
        (compute_path_hash sha fs₂ p₂.schema_file.as_str).take 8)
      rw [e1, e2]
    · show TValue.value ("pgmold-" ++
        (compute_path_hash sha fs₁ p₁.schema_file.as_str).take 8) =
        TValue.value ("pgmold-" ++ (sha cp).take 8)
      rw [e1]
  · intro fs sha p s h
    obtain ⟨hurl, hex, hpar, sh, hsh, hs⟩ := mig_plan_create_ok_inv fs sha p s h
    obtain ⟨c, hc, hv⟩ := compute_schema_hash_eq_some sha fs _ sh hsh
    have hu2 : s.database_url.isNone = false := by rw [hs]; exact hurl
    have he2 : fsExists fs s.schema_file = true := by rw [hs]; exact hex
    have hp2 : ∀ parent, fs.parentOf s.output_dir = some parent →
        fsExists fs parent = true := by rw [hs]; exact hpar
    have hc2 : fs.files s.schema_file = some (some c) := by rw [hs]; exact hc
    refine ⟨_, mig_plan_create_ok_of fs sha s c hu2 he2 hp2 hc2, ?_⟩
    rw [hs]
    show "pgmold-migration-" ++ (sha c).take 8 =
      "pgmold-migration-" ++ sh.take 8
    rw [hv]
  · intro fs sha p s h
    obtain ⟨hurl, hex, sh, hsh, hs⟩ := schema_plan_create_ok_inv fs sha p s h
    obtain ⟨c, hc, hv⟩ := compute_schema_hash_eq_some sha fs _ sh hsh
    have hu2 : s.database_url.is_null = false := by rw [hs]; exact hurl
    have he2 : fsExists fs s.schema_file.as_str = true := by rw [hs]; exact hex
    have hc2 : fs.files s.schema_file.as_str = some (some c) := by
      rw [hs]; exact hc
    refine ⟨_, schema_plan_create_ok_of fs sha s c hu2 he2 hc2, ?_⟩
    rw [hs]

/-- Witness for C8 at a concrete plan. -/
theorem C8_witness :
    MigrationResource.plan_create fsW shaW migW =
      .ok { migW with
            id := "pgmold-migration-d1CREATE",
            schema_hash := some "d1CREATE TABLE t (id INT);e5f60708" } := by
  exact (C8_identity.1 fsW shaW migW "CREATE TABLE t (id INT);"
    (by decide) (by decide) (by decide) (by decide)).trans (by decide)

/-- C9: `sanitize_db_error` is the per-line map, in original order, that
replaces each line containing a password marker with the fixed redacted
message and passes every other line through unchanged. -/
theorem C9_sanitize (e : String) :
    sanitize_db_error e =
      String.intercalate "\n" ((rustLines e).map sanitizeLine) ∧
    (∀ l, (strContains l "password" || strContains l "PASSWORD") = true →
      sanitizeLine l = redactedMessage) ∧
    (∀ l, (strContains l "password" || strContains l "PASSWORD") = false →
      sanitizeLine l = l) ∧
    ((rustLines e).map sanitizeLine).length = (rustLines e).length := by
  refine ⟨rfl, ?_, ?_, by simp⟩
  · intro l h
    simp [sanitizeLine, h]
  · intro l h
    simp [sanitizeLine, h]

/-- Witness for C9 on a concrete two-line error. -/
theorem C9_witness :
    sanitizeLine "FATAL: password authentication failed" = redactedMessage ∧
    sanitizeLine "host unreachable" = "host unreachable" ∧
    sanitize_db_error "FATAL: password authentication failed\nhost unreachable" =
      String.intercalate "\n"
        ((rustLines "FATAL: password authentication failed\nhost unreachable").map
          sanitizeLine) := by
  refine ⟨(C9_sanitize "").2.1 _ (by decide), (C9_sanitize "").2.2.1 _ (by decide),
    (C9_sanitize "FATAL: password authentication failed\nhost unreachable").1⟩

/-- Both outcomes of the shared write step mark SQL generation and directory
creation as attempted and preserve the incoming deletion flag. -/
theorem migrationWriteStep_snd (env : PgEnv) (fs : FS)
    (p : MigrationResourceState) (ops : List DiffOp) (eff0 : MigEffects) :
    (migrationWriteStep env fs p ops eff0).2.attempted_mkdir = true ∧
    (migrationWriteStep env fs p ops eff0).2.generated_sql = true ∧
    (migrationWriteStep env fs p ops eff0).2.deleted_old = eff0.deleted_old := by
  simp only [migrationWriteStep]
  split
  · exact ⟨rfl, rfl, rfl⟩
  · split
    · exact ⟨rfl, rfl, rfl⟩
    · exact ⟨rfl, rfl, rfl⟩

/-- C1: with the stages before the lint gate succeeding and a non-empty
diff, an apply (create or update) of either resource kind is blocked
exactly when at least one lint finding has error severity; when blocked,
the message of every error-severity finding is reported (not just the
first), and nothing further happens: for the migration resource no SQL is
generated and no file or directory effect is attempted, for the schema
resource no SQL execution is attempted.  When not blocked the pipeline
proceeds (SQL generation, respectively execution, is attempted). -/
theorem C1_lint_gate (env : PgEnv) (fs : FS)
    (prior planned : MigrationResourceState)
    (prior2 sp : SchemaResourceState) (db_url : String)
    (cur tgt cur2 tgt2 : SchemaModel)
    (h1 : planned.database_url = some db_url)
    (h2 : env.connect db_url = .ok ())
    (h3 : env.introspect (planned.target_schemas.getD ["public"]) = .ok cur)
    (h4 : env.parse_sql_file planned.schema_file = .ok tgt)
    (h5 : env.compute_diff cur tgt ≠ [])
    (h6 : env.connect sp.database_url.as_str = .ok ())
    (h7 : env.introspect ["public"] = .ok cur2)
    (h8 : env.parse_sql_file sp.schema_file.as_str = .ok tgt2)
    (h9 : env.compute_diff cur2 tgt2 ≠ []) :
    (has_errors (env.lint_migration_plan (env.compute_diff cur tgt)
        { allow_destructive := false, is_production := false }) = true ↔
      MigrationResource.create env fs planned =
        (.error (errorMessages (env.lint_migration_plan
            (env.compute_diff cur tgt)
            { allow_destructive := false, is_production := false })),
         noMigEffects)) ∧
    (has_errors (env.lint_migration_plan (env.compute_diff cur tgt)
        { allow_destructive := false, is_production := false }) = true ↔
      MigrationResource.update env fs prior planned =
        (.error (errorMessages (env.lint_migration_plan
            (env.compute_diff cur tgt)
            { allow_destructive := false, is_production := false })),
         noMigEffects)) ∧
    (has_errors (env.lint_migration_plan (env.compute_diff cur tgt)
        { allow_destructive := false, is_production := false }) = false →
      (MigrationResource.create env fs planned).2.generated_sql = true ∧
      (MigrationResource.update env fs prior planned).2.generated_sql = true) ∧
    (has_errors (env.lint_migration_plan (env.compute_diff cur2 tgt2)
        { allow_destructive := sp.allow_destructive.unwrap_or false,
          is_production := false }) = true ↔
      SchemaResource.create env sp =
        (.error (errorMessages (env.lint_migration_plan
            (env.compute_diff cur2 tgt2)
            { allow_destructive := sp.allow_destructive.unwrap_or false,
              is_production := false })),
         false)) ∧
    (has_errors (env.lint_migration_plan (env.compute_diff cur2 tgt2)
        { allow_destructive := sp.allow_destructive.unwrap_or false,
          is_production := false }) = true ↔
      SchemaResource.update env prior2 sp =
        (.error (errorMessages (env.lint_migration_plan
            (env.compute_diff cur2 tgt2)
            { allow_destructive := sp.allow_destructive.unwrap_or false,
              is_production := false })),
         false)) ∧
    (has_errors (env.lint_migration_plan (env.compute_diff cur2 tgt2)
        { allow_destructive := sp.allow_destructive.unwrap_or false,
          is_production := false }) = false →
      (SchemaResource.create env sp).2 = true) := by
  have h5b : (env.compute_diff cur tgt).isEmpty = false := by
    cases hL : env.compute_diff cur tgt with
    | nil => exact absurd hL h5
    | cons a t => rfl
  have h9b : (env.compute_diff cur2 tgt2).isEmpty = false := by
    cases hL : env.compute_diff cur2 tgt2 with
    | nil => exact absurd hL h9
    | cons a t => rfl
  have hmc : MigrationResource.create env fs planned =
      (if has_errors (env.lint_migration_plan (env.compute_diff cur tgt)
          { allow_destructive := false, is_production := false }) then
        (.error (errorMessages (env.lint_migration_plan
            (env.compute_diff cur tgt)
            { allow_destructive := false, is_production := false })),
         noMigEffects)
       else
        migrationWriteStep env fs planned (env.compute_diff cur tgt)
          noMigEffects) := by
    simp [MigrationResource.create, h1, h2, h3, h4, h5b]
  have hmu : MigrationResource.update env fs prior planned =
      (if has_errors (env.lint_migration_plan (env.compute_diff cur tgt)
          { allow_destructive := false, is_production := false }) then
        (.error (errorMessages (env.lint_migration_plan
            (env.compute_diff cur tgt)
            { allow_destructive := false, is_production := false })),
         noMigEffects)
       else
        migrationWriteStep env fs planned (env.compute_diff cur tgt)
          { noMigEffects with deleted_old :=
              match prior.migration_file with
              | some old_file => fsExists fs old_file
              | none => false }) := by
    simp [MigrationResource.update, h1, h2, h3, h4, h5b]
  have hap : apply_migration env sp.schema_file.as_str
      { dry_run := false,
        allow_destructive := sp.allow_destructive.unwrap_or false } =
      (if has_errors (env.lint_migration_plan (env.compute_diff cur2 tgt2)
          { allow_destructive := sp.allow_destructive.unwrap_or false,
            is_production := false }) then
        ((Except.ok
            { lint_results :=
                env.lint_migration_plan (env.compute_diff cur2 tgt2)
                  { allow_destructive := sp.allow_destructive.unwrap_or false,
                    is_production := false },
              operations := env.compute_diff cur2 tgt2 } :
          Except String ApplyResult),
         false)
       else
        match env.execute_sql (env.compute_diff cur2 tgt2) with
        | .error e => (.error e, true)
        | .ok _ =>
          ((Except.ok
              { lint_results :=
                  env.lint_migration_plan (env.compute_diff cur2 tgt2)
                    { allow_destructive := sp.allow_destructive.unwrap_or false,
                      is_production := false },
                operations := env.compute_diff cur2 tgt2 } :
            Except String ApplyResult),
           true)) := by
    simp [apply_migration, h7, h8, h9b]
  have hMain : has_errors (env.lint_migration_plan (env.compute_diff cur2 tgt2)
      { allow_destructive := sp.allow_destructive.unwrap_or false,
        is_production := false }) = true ↔
      SchemaResource.create env sp =
        (.error (errorMessages (env.lint_migration_plan
            (env.compute_diff cur2 tgt2)
            { allow_destructive := sp.allow_destructive.unwrap_or false,
              is_production := false })),
         false) := by
    constructor
    · intro hE
      have hap2 := hap
      rw [if_pos hE] at hap2
      simp [SchemaResource.create, h6, hap2, hE]
    · intro hEq
      by_cases hE : has_errors (env.lint_migration_plan
          (env.compute_diff cur2 tgt2)
          { allow_destructive := sp.allow_destructive.unwrap_or false,
            is_production := false }) = true
      · exact hE
      · exfalso
        have hEf : has_errors (env.lint_migration_plan
            (env.compute_diff cur2 tgt2)
            { allow_destructive := sp.allow_destructive.unwrap_or false,
              is_production := false }) = false := by
          revert hE
          cases has_errors (env.lint_migration_plan (env.compute_diff cur2 tgt2)
            { allow_destructive := sp.allow_destructive.unwrap_or false,
              is_production := false }) <;> simp
        cases hX : env.execute_sql (env.compute_diff cur2 tgt2) with
        | error err =>
          have hap2 := hap
          rw [if_neg hE, hX] at hap2
          have hcr : SchemaResource.create env sp =
              (.error ["Migration failed: " ++ err], true) := by
            simp [SchemaResource.create, h6, hap2]
          rw [hcr] at hEq
          have := congrArg Prod.snd hEq
          simp at this
        | ok u =>
          have hap2 := hap
          rw [if_neg hE, hX] at hap2
          have hcr : (SchemaResource.create env sp).2 = true := by
            simp [SchemaResource.create, h6, hap2, hEf]
          rw [hEq] at hcr
          simp at hcr
  refine ⟨?_, ?_, ?_, hMain, ?_, ?_⟩
  · rw [hmc]
    constructor
    · intro hE
      rw [if_pos hE]
    · intro hEq
      by_cases hE : has_errors (env.lint_migration_plan
          (env.compute_diff cur tgt)
          { allow_destructive := false, is_production := false }) = true
      · exact hE
      · exfalso
        rw [if_neg hE] at hEq
        have hm := (migrationWriteStep_snd env fs planned
          (env.compute_diff cur tgt) noMigEffects).1
        rw [hEq] at hm
        simp [noMigEffects] at hm
  · rw [hmu]
    constructor
    · intro hE
      rw [if_pos hE]
    · intro hEq
      by_cases hE : has_errors (env.lint_migration_plan
          (env.compute_diff cur tgt)
          { allow_destructive := false, is_production := false }) = true
      · exact hE
      · exfalso
        rw [if_neg hE] at hEq
        have hm := (migrationWriteStep_snd env fs planned
          (env.compute_diff cur tgt)
          { noMigEffects with deleted_old :=
              match prior.migration_file with
              | some old_file => fsExists fs old_file
              | none => false }).1
        rw [hEq] at hm
        simp [noMigEffects] at hm
  · intro hEf
    have hE : ¬ has_errors (env.lint_migration_plan (env.compute_diff cur tgt)
        { allow_destructive := false, is_production := false }) = true := by
      simp [hEf]
    constructor
    · rw [hmc, if_neg hE]
      exact (migrationWriteStep_snd env fs planned
        (env.compute_diff cur tgt) noMigEffects).2.1
    · rw [hmu, if_neg hE]
      exact (migrationWriteStep_snd env fs planned
        (env.compute_diff cur tgt) _).2.1
  · unfold SchemaResource.update
    exact hMain
  · intro hEf
    have hE : ¬ has_errors (env.lint_migration_plan (env.compute_diff cur2 tgt2)
        { allow_destructive := sp.allow_destructive.unwrap_or false,
          is_production := false }) = true := by
      simp [hEf]
    cases hX : env.execute_sql (env.compute_diff cur2 tgt2) with
    | error err =>
      have hap2 := hap
      rw [if_neg hE, hX] at hap2
      simp [SchemaResource.create, h6, hap2]
    | ok u =>
      have hap2 := hap
      rw [if_neg hE, hX] at hap2
      simp [SchemaResource.create, h6, hap2, hEf]

/-- Witness for C1: a concrete blocked apply reports both error-severity
messages (and not the warning), with no effect attempted. -/
theorem C1_witness :
    MigrationResource.create envBlock fsW migW =
      (.error ["destructive drop of table t", "destructive drop of column c"],
       noMigEffects) ∧
    SchemaResource.create envBlock schW =
      (.error ["destructive drop of table t", "destructive drop of column c"],
       false) := by
  have h := C1_lint_gate envBlock fsW migW migW schW schW "postgres://u@h/d"
    { tag := "live" } { tag := "desired" } { tag := "live" } { tag := "desired" }
    rfl rfl rfl rfl (by decide) rfl rfl rfl (by decide)
  exact ⟨(h.1.mp (by decide)).trans (by decide),
    (h.2.2.2.1.mp (by decide)).trans (by decide)⟩

/-- C6: when the computed operation set is empty, every apply path of both
resource kinds succeeds recording zero operations — an empty operation list
for the migration resource, a zero operation count for the schema resource —
and the migration resource attempts no file write, no directory creation and
no deletion, while the schema resource attempts no SQL execution. -/
theorem C6_empty_ops (env : PgEnv) (fs : FS)
    (prior planned : MigrationResourceState)
    (prior2 sp : SchemaResourceState) (db_url : String)
    (cur tgt cur2 tgt2 : SchemaModel)
    (h1 : planned.database_url = some db_url)
    (h2 : env.connect db_url = .ok ())
    (h3 : env.introspect (planned.target_schemas.getD ["public"]) = .ok cur)
    (h4 : env.parse_sql_file planned.schema_file = .ok tgt)
    (h5 : env.compute_diff cur tgt = [])
    (h6 : env.connect sp.database_url.as_str = .ok ())
    (h7 : env.introspect ["public"] = .ok cur2)
    (h8 : env.parse_sql_file sp.schema_file.as_str = .ok tgt2)
    (h9 : env.compute_diff cur2 tgt2 = []) :
    MigrationResource.create env fs planned =
      (.ok { planned with operations := some [] }, noMigEffects) ∧
    MigrationResource.update env fs prior planned =
      (.ok { planned with operations := some [] }, noMigEffects) ∧
    SchemaResource.create env sp =
      (.ok { sp with
             applied_at := .value env.now_rfc3339,
             migration_count := .value 0 }, false) ∧
    SchemaResource.update env prior2 sp =
      (.ok { sp with
             applied_at := .value env.now_rfc3339,
             migration_count := .value 0 }, false) := by
  have hm : MigrationResource.create env fs planned =
      (.ok { planned with operations := some [] }, noMigEffects) := by
    simp [MigrationResource.create, h1, h2, h3, h4, h5]
  have hu : MigrationResource.update env fs prior planned =
      (.ok { planned with operations := some [] }, noMigEffects) := by
    simp [MigrationResource.update, h1, h2, h3, h4, h5]
  have hs : SchemaResource.create env sp =
      (.ok { sp with
             applied_at := .value env.now_rfc3339,
             migration_count := .value 0 }, false) := by
    simp [SchemaResource.create, apply_migration, h6, h7, h8, h9, has_errors]
  exact ⟨hm, hu, hs, by unfold SchemaResource.update; exact hs⟩

/-- Witness for C6 at a concrete empty-diff environment. -/
theorem C6_witness :
    MigrationResource.create envEmptyDiff fsW migW =
      (.ok { migW with operations := some [] }, noMigEffects) ∧
    MigrationResource.update envEmptyDiff fsW migCarried migW =
      (.ok { migW with operations := some [] }, noMigEffects) ∧
    SchemaResource.create envEmptyDiff schW =
      (.ok { schW with
             applied_at := .value envEmptyDiff.now_rfc3339,
             migration_count := .value 0 }, false) := by
  have h := C6_empty_ops envEmptyDiff fsW migCarried migW schW schW
    "postgres://u@h/d"
    { tag := "live" } { tag := "desired" } { tag := "live" } { tag := "desired" }
    rfl rfl rfl rfl rfl rfl rfl rfl rfl
  exact ⟨h.1, h.2.1, h.2.2.1⟩

/-- C10: for the migration resource's update, the prior artifact deletion is
attempted only after connection, introspection, parsing, a non-empty diff
and the lint gate have all succeeded; every abort at those stages — and the
empty-diff success path — produces `noMigEffects`: the previously created
file is untouched, no new file is written and no directory is created.
Conversely, an attempted deletion implies all those stages succeeded and
the prior artifact existed on disk. -/
theorem C10_delete_ordering (env : PgEnv) (fs : FS)
    (prior planned : MigrationResourceState) :
    (planned.database_url = none →
      MigrationResource.update env fs prior planned =
        (.error [], noMigEffects)) ∧
    (∀ url e, planned.database_url = some url → env.connect url = .error e →
      MigrationResource.update env fs prior planned =
        (.error ["Failed to connect to database: " ++ sanitize_db_error e],
         noMigEffects)) ∧
    (∀ url e, planned.database_url = some url → env.connect url = .ok () →
      env.introspect (planned.target_schemas.getD ["public"]) = .error e →
      MigrationResource.update env fs prior planned =
        (.error ["Failed to introspect database: " ++ e], noMigEffects)) ∧
    (∀ url cur e, planned.database_url = some url → env.connect url = .ok () →
      env.introspect (planned.target_schemas.getD ["public"]) = .ok cur →
      env.parse_sql_file planned.schema_file = .error e →
      MigrationResource.update env fs prior planned =
        (.error ["Failed to parse schema file: " ++ e], noMigEffects)) ∧
    (∀ url cur tgt, planned.database_url = some url →
      env.connect url = .ok () →
      env.introspect (planned.target_schemas.getD ["public"]) = .ok cur →
      env.parse_sql_file planned.schema_file = .ok tgt →
      env.compute_diff cur tgt = [] →
      MigrationResource.update env fs prior planned =
        (.ok { planned with operations := some [] }, noMigEffects)) ∧
    (∀ url cur tgt, planned.database_url = some url →
      env.connect url = .ok () →
      env.introspect (planned.target_schemas.getD ["public"]) = .ok cur →
      env.parse_sql_file planned.schema_file = .ok tgt →
      env.compute_diff cur tgt ≠ [] →
      has_errors (env.lint_migration_plan (env.compute_diff cur tgt)
        { allow_destructive := false, is_production := false }) = true →
      MigrationResource.update env fs prior planned =
        (.error (errorMessages (env.lint_migration_plan
          (env.compute_diff cur tgt)
          { allow_destructive := false, is_production := false })),
         noMigEffects)) ∧
    ((MigrationResource.update env fs prior planned).2.deleted_old = true →
      ∃ url cur tgt, planned.database_url = some url ∧
        env.connect url = .ok () ∧
        env.introspect (planned.target_schemas.getD ["public"]) = .ok cur ∧
        env.parse_sql_file planned.schema_file = .ok tgt ∧
        env.compute_diff cur tgt ≠ [] ∧
        has_errors (env.lint_migration_plan (env.compute_diff cur tgt)
          { allow_destructive := false, is_production := false }) = false ∧
        ∃ old, prior.migration_file = some old ∧ fsExists fs old = true) := by
  refine ⟨?_, ?_, ?_, ?_, ?_, ?_, ?_⟩
  · intro h
    simp [MigrationResource.update, h]
  · intro url e h hc
    simp [MigrationResource.update, h, hc]
  · intro url e h hc hi
    simp [MigrationResource.update, h, hc, hi]
  · intro url cur e h hc hi hp
    simp [MigrationResource.update, h, hc, hi, hp]
  · intro url cur tgt h hc hi hp hd
    simp [MigrationResource.update, h, hc, hi, hp, hd]
  · intro url cur tgt h hc hi hp hd hE
    have hEmp : (env.compute_diff cur tgt).isEmpty = false := by
      cases hL : env.compute_diff cur tgt with
      | nil => exact absurd hL hd
      | cons a t => rfl
    simp [MigrationResource.update, h, hc, hi, hp, hEmp, hE]
  · intro h
    cases hdb : planned.database_url with
    | none =>
      have hz : MigrationResource.update env fs prior planned =
          (.error [], noMigEffects) := by
        simp [MigrationResource.update, hdb]
      rw [hz] at h
      simp [noMigEffects] at h
    | some url =>
      cases hc : env.connect url with
      | error e =>
        have hz : MigrationResource.update env fs prior planned =
            (.error ["Failed to connect to database: " ++ sanitize_db_error e],
             noMigEffects) := by
          simp [MigrationResource.update, hdb, hc]
        rw [hz] at h
        simp [noMigEffects] at h
      | ok u =>
        cases u
        cases hi : env.introspect (planned.target_schemas.getD ["public"]) with
        | error e =>
          have hz : MigrationResource.update env fs prior planned =
              (.error ["Failed to introspect database: " ++ e], noMigEffects) := by
            simp [MigrationResource.update, hdb, hc, hi]
          rw [hz] at h
          simp [noMigEffects] at h
        | ok cur =>
          cases hp : env.parse_sql_file planned.schema_file with
          | error e =>
            have hz : MigrationResource.update env fs prior planned =
                (.error ["Failed to parse schema file: " ++ e], noMigEffects) := by
              simp [MigrationResource.update, hdb, hc, hi, hp]
            rw [hz] at h
            simp [noMigEffects] at h
          | ok tgt =>
            cases hL : env.compute_diff cur tgt with
            | nil =>
              have hz : MigrationResource.update env fs prior planned =
                  (.ok { planned with operations := some [] }, noMigEffects) := by
                simp [MigrationResource.update, hdb, hc, hi, hp, hL]
              rw [hz] at h
              simp [noMigEffects] at h
            | cons o os =>
              have hne : env.compute_diff cur tgt ≠ [] := by
                rw [hL]
                simp
              have hEmp : (env.compute_diff cur tgt).isEmpty = false := by
                rw [hL]
                rfl
              by_cases hE : has_errors (env.lint_migration_plan
                  (env.compute_diff cur tgt)
                  { allow_destructive := false, is_production := false }) = true
              · have hz : MigrationResource.update env fs prior planned =
                    (.error (errorMessages (env.lint_migration_plan
                      (env.compute_diff cur tgt)
                      { allow_destructive := false, is_production := false })),
                     noMigEffects) := by
                  simp [MigrationResource.update, hdb, hc, hi, hp, hEmp, hE]
                rw [hz] at h
                simp [noMigEffects] at h
              · have hEf : has_errors (env.lint_migration_plan
                    (env.compute_diff cur tgt)
                    { allow_destructive := false, is_production := false }) =
                    false := by
                  revert hE
                  cases has_errors (env.lint_migration_plan
                    (env.compute_diff cur tgt)
                    { allow_destructive := false, is_production := false }) <;>
                    simp
                have hupd : MigrationResource.update env fs prior planned =
                    migrationWriteStep env fs planned (env.compute_diff cur tgt)
                      { noMigEffects with deleted_old :=
                          match prior.migration_file with
                          | some old_file => fsExists fs old_file
                          | none => false } := by
                  simp [MigrationResource.update, hdb, hc, hi, hp, hEmp, hEf]
                rw [hupd] at h
                rw [(migrationWriteStep_snd env fs planned
                  (env.compute_diff cur tgt) _).2.2] at h
                cases hm : prior.migration_file with
                | none =>
                  rw [hm] at h
                  simp at h
                | some old =>
                  rw [hm] at h
                  refine ⟨url, cur, tgt, rfl, hc, rfl, rfl, hne, hEf, old, rfl, ?_⟩
                  simpa using h

/-- Witness for C10: an aborted update (failed connection) leaves all
effects unattempted; and a concrete update whose deletion flag is set
implies the full success of the earlier stages and the existence of the
prior artifact. -/
theorem C10_witness :
    MigrationResource.update envConnFail fsW migCarried migW =
      (.error ["Failed to connect to database: " ++ redactedMessage],
       noMigEffects) ∧
    (∃ url cur tgt, migW.database_url = some url ∧
      envClean.connect url = .ok () ∧
      envClean.introspect (migW.target_schemas.getD ["public"]) = .ok cur ∧
      envClean.parse_sql_file migW.schema_file = .ok tgt ∧
      envClean.compute_diff cur tgt ≠ [] ∧
      has_errors (envClean.lint_migration_plan (envClean.compute_diff cur tgt)
        { allow_destructive := false, is_production := false }) = false ∧
      ∃ old, migCarried.migration_file = some old ∧ fsExists fsW old = true) := by
  constructor
  · exact ((C10_delete_ordering envConnFail fsW migCarried migW).2.1
      "postgres://u@h/d" "FATAL: password authentication failed for user"
      rfl rfl).trans (by decide)
  · exact (C10_delete_ordering envClean fsW migCarried migW).2.2.2.2.2.2
      (by decide)
